import Mathlib

/-!
Verification of the SOMS capacity-check engine (`src/soms/checks/AISC.py`)
against its natural-language specification.

The Python module is a set of stateless, vectorized numeric transforms over
batches of structural members.  We embed each check shallowly:

* a batch is a `List` of per-member records (NumPy broadcasting of the
  member-varying arrays becomes an elementwise `List.map` / `List.zipWith`);
* float arithmetic is idealized over `ℝ` (`np.sqrt` is `Real.sqrt`,
  `np.pi` is `Real.pi`, `x ** y` on floats is `Real.rpow`);
* a Python `assert` (and the unbound-local slip in `F2_flexure_major`,
  see below) makes a call fallible, so batch entry points return
  `Except PyError (List ℝ)`;
* `np.inf`, which appears only as the absorbing element of `np.minimum`
  inside `F9_flexure_t_2l`, is modelled by `Option ℝ` with `none` = +inf;
* the `warnings.warn` call in `F9_flexure_t_2l` is modelled by returning
  the list of emitted warnings next to the numeric result.
-/

open Classical

/-- Runtime failures a check call can raise, per the source.
`assertionError` is a failed `assert`; `unboundLocal` is Python's
`UnboundLocalError` (a local name read before any assignment);
`indexError` is an out-of-range subscript such as `Pr[0]` on an empty array. -/
inductive PyError
  | assertionError
  | unboundLocal
  | indexError
deriving DecidableEq

/-- Section family tag.  The source uses strings; `W` and `C` are the two
values accepted by `F2_flexure_major`, `T` stands for any other tag. -/
inductive SectType
  | W
  | C
  | T
deriving DecidableEq

/-! ## P_delta (AISC Appendix 8, B1 multiplier) -/

/-- Per-member inputs of `P_delta` that vary across the batch
(`Pr`, `I`, `Lb`, and the optional per-member `Cm`). -/
structure PDeltaMember where
  Pr : ℝ
  I : ℝ
  Lb : ℝ
  Cm : ℝ

/-- Per-member body of `P_delta` after the sign assert:
`Pr = np.abs(Pr)`, `Pe1 = pi**2 * 0.8 * tao_b * E * I / Lb**2` (AISC A-8-5),
`B1 = Cm / (1 - alpha * Pr / Pe1)` (AISC A-8-3). -/
noncomputable def P_delta_B1 (E tao_b alpha : ℝ) (m : PDeltaMember) : ℝ :=
  m.Cm / (1 - alpha * |m.Pr| / (Real.pi ^ 2 * 0.8 * tao_b * E * m.I / m.Lb ^ 2))

/-- `P_delta(Pr, I, Lb, E, tao_b, Cm, alpha)`.
The source guards the whole call with
`assert np.all(Pr > 0) if Pr[0] > 0 else np.all(Pr < 0)`:
the check direction is chosen by the sign of the first entry.
`Pr[0]` on an empty array is an `IndexError`. -/
noncomputable def P_delta (ms : List PDeltaMember) (E tao_b alpha : ℝ) :
    Except PyError (List ℝ) :=
  match ms with
  | [] => Except.error PyError.indexError
  | m0 :: _ =>
    if (if 0 < m0.Pr then ∀ m ∈ ms, 0 < m.Pr else ∀ m ∈ ms, m.Pr < 0) then
      Except.ok (ms.map (P_delta_B1 E tao_b alpha))
    else Except.error PyError.assertionError

/-! ## E3_compression (AISC Chapter E) -/

/-- Per-member inputs of `E3_compression`. -/
structure E3Member where
  A : ℝ
  rx : ℝ
  ry : ℝ
  Lb : ℝ
  Fy : ℝ

/-- Critical stress of one member:
`r_min = np.minimum(rx, ry)`, `Fe = pi**2 * E / (Lb/r_min)**2` (AISC E3-4),
`Fcr = np.where(Fy/Fe <= 2.25, 0.658**(Fy/Fe) * Fy, 0.877 * Fe)`
(AISC E3-2 inelastic / E3-3 elastic). -/
noncomputable def E3_Fcr (E : ℝ) (m : E3Member) : ℝ :=
  let r_min := min m.rx m.ry
  let Fe := Real.pi ^ 2 * E / (m.Lb / r_min) ^ 2
  if m.Fy / Fe ≤ 2.25 then (0.658 : ℝ) ^ (m.Fy / Fe) * m.Fy
  else 0.877 * Fe

/-- `E3_compression(A, rx, ry, Lb, Fy, E)`: `phiPn = 0.9 * Fcr * A` elementwise. -/
noncomputable def E3_compression (ms : List E3Member) (E : ℝ) : List ℝ :=
  ms.map (fun m => 0.9 * E3_Fcr E m * m.A)

/-! ## F2_flexure_major (AISC Chapter F, F2) -/

/-- Per-member demand inputs of `F2_flexure_major` that are always passed
explicitly (never through the `props` bundle): `Lb`, `Fy`, `Cb`. -/
structure F2Demand where
  Lb : ℝ
  Fy : ℝ
  Cb : ℝ

/-- One member's slice of the section-property arrays consumed by the F2 math
(the local variables `section`, `ho`, `J`, `Sx`, `Zx`, `ry`, `rts`, `Iy`, `Cw`
of the source after unpacking). -/
structure F2Explicit where
  sect : SectType
  ho : ℝ
  J : ℝ
  Sx : ℝ
  Zx : ℝ
  ry : ℝ
  rts : ℝ
  Iy : ℝ
  Cw : ℝ

/-- One member's row of the `props` bundle: the columns `'Type'`, `'ho'`,
`'J'`, `'Sx'`, `'Zx'`, `'ry'`, `'rts'`, `'Iy'`, `'Cw'` of the dict/DataFrame. -/
structure F2PropsRow where
  sect : SectType
  ho : ℝ
  J : ℝ
  Sx : ℝ
  Zx : ℝ
  ry : ℝ
  rts : ℝ
  Iy : ℝ
  Cw : ℝ

/-- Coefficient `c = np.where(section == "W", 1, ho / 2 * np.sqrt(Iy / Cw))`
(AISC F2-8). -/
noncomputable def F2_c (s : F2Explicit) : ℝ :=
  if s.sect = SectType.W then 1 else s.ho / 2 * Real.sqrt (s.Iy / s.Cw)

/-- Plastic moment `Mp = Fy * Zx` (AISC F2-1). -/
def F2_Mp (d : F2Demand) (s : F2Explicit) : ℝ := d.Fy * s.Zx

/-- Limiting length `Lp = 1.76 * ry * np.sqrt(E / Fy)` (AISC F2-5). -/
noncomputable def F2_Lp (E : ℝ) (d : F2Demand) (s : F2Explicit) : ℝ :=
  1.76 * s.ry * Real.sqrt (E / d.Fy)

/-- Limiting length `Lr` (AISC F2-6). -/
noncomputable def F2_Lr (E : ℝ) (d : F2Demand) (s : F2Explicit) : ℝ :=
  1.95 * s.rts * E / (0.7 * d.Fy) *
    Real.sqrt (s.J * F2_c s / (s.Sx * s.ho) +
      Real.sqrt ((s.J * F2_c s / (s.Sx * s.ho)) ^ 2 + 6.76 * (0.7 * d.Fy / E) ^ 2))

/-- Elastic lateral-torsional buckling moment (AISC F2-3, F2-4). -/
noncomputable def F2_Mn_elastic (E : ℝ) (d : F2Demand) (s : F2Explicit) : ℝ :=
  d.Cb * Real.pi ^ 2 * E / (d.Lb / s.rts) ^ 2 *
    Real.sqrt (1 + 0.078 * (s.J * F2_c s) / (s.Sx * s.ho) * (d.Lb / s.rts) ^ 2) * s.Sx

/-- Inelastic lateral-torsional buckling moment (AISC F2-2). -/
noncomputable def F2_Mn_inelastic (E : ℝ) (d : F2Demand) (s : F2Explicit) : ℝ :=
  d.Cb * (F2_Mp d s - (F2_Mp d s - 0.7 * d.Fy * s.Sx) *
    (d.Lb - F2_Lp E d s) / (F2_Lr E d s - F2_Lp E d s))

/-- Nominal flexural strength:
`Mn = np.where(Lb <= Lp, Mp, np.where(Lb > Lr, np.minimum(Mp, Mn_elastic),
np.minimum(Mp, Mn_inelastic)))`. -/
noncomputable def F2_Mn (E : ℝ) (d : F2Demand) (s : F2Explicit) : ℝ :=
  if d.Lb ≤ F2_Lp E d s then F2_Mp d s
  else if F2_Lr E d s < d.Lb then min (F2_Mp d s) (F2_Mn_elastic E d s)
  else min (F2_Mp d s) (F2_Mn_inelastic E d s)

/-- Returned value `phiMnx = 0.9 * Mn` of one member. -/
noncomputable def F2_phiMnx (E : ℝ) (d : F2Demand) (s : F2Explicit) : ℝ :=
  0.9 * F2_Mn E d s

/-- The `props`-branch unpacking of `F2_flexure_major`: every column is read
from the bundle, except that `Iy`, `Cw` are read only when the bundle holds at
least one channel (`np.any(section == 'C')`); otherwise the source sets
`Iy = 0.0; Cw = 1.0` for the whole batch. -/
def F2_unpack (bundle : List F2PropsRow) : List F2Explicit :=
  if bundle.any (fun r => r.sect == SectType.C) then
    bundle.map (fun r => ⟨r.sect, r.ho, r.J, r.Sx, r.Zx, r.ry, r.rts, r.Iy, r.Cw⟩)
  else
    bundle.map (fun r => ⟨r.sect, r.ho, r.J, r.Sx, r.Zx, r.ry, r.rts, 0, 1⟩)

set_option linter.unusedVariables false in
/-- `F2_flexure_major(Lb, Fy, section_type, ho, J, Sx, Zx, ry, rts, Iy, Cw,
props, Cb, E)`.

The member-varying demand inputs `Lb`, `Fy`, `Cb` are `dem`; the explicit
section arrays are the nine `Option` parameters (mirroring the `None`
defaults of the source); `props` is the optional bundle.

Faithfulness note: the source body never mentions the parameter
`section_type`.  It reads the local name `section`, which is assigned only
inside the `if props is not None:` branch (`section = props['Type']`).
Hence with `props=None` Python raises `UnboundLocalError` at the
applicability assert (`assert np.all((section == 'W') | (section == 'C'))`)
before any arithmetic; the nine explicit section parameters are dead. -/
noncomputable def F2_flexure_major (dem : List F2Demand)
    (section_type : Option (List SectType))
    (ho J Sx Zx ry rts Iy Cw : Option (List ℝ))
    (props : Option (List F2PropsRow))
    (E : ℝ) : Except PyError (List ℝ) :=
  match props with
  | none => Except.error PyError.unboundLocal
  | some bundle =>
    let sec := F2_unpack bundle
    if ∀ s ∈ sec, s.sect = SectType.W ∨ s.sect = SectType.C then
      Except.ok (List.zipWith (F2_phiMnx E) dem sec)
    else Except.error PyError.assertionError

/-! ## F6_flexure_minor (AISC Chapter F, F6) -/

/-- Per-member inputs of `F6_flexure_minor`. -/
structure F6Member where
  Sy : ℝ
  Zy : ℝ
  lambda_f : ℝ
  Fy : ℝ

/-- Nominal weak-axis strength of one member:
`lambda_pf = 0.38*sqrt(E/Fy)`, `lambda_rf = sqrt(E/Fy)` (Table B4.1b Case 10),
`Mp = np.minimum(Fy*Zy, 1.6*Fy*Sy)` (AISC F6-1),
`Mn = np.where(is_compact, Mp, np.where(is_slender, 0.69*E*Sy/lambda_f**2,
Mp - (Mp - 0.7*Fy*Sy) * (lambda_f - lambda_pf)/(lambda_rf - lambda_pf)))`. -/
noncomputable def F6_Mn (E : ℝ) (m : F6Member) : ℝ :=
  let lambda_pf := 0.38 * Real.sqrt (E / m.Fy)
  let lambda_rf := Real.sqrt (E / m.Fy)
  let Mp := min (m.Fy * m.Zy) (1.6 * m.Fy * m.Sy)
  if m.lambda_f ≤ lambda_pf then Mp
  else if lambda_rf ≤ m.lambda_f then 0.69 * E * m.Sy / m.lambda_f ^ 2
  else Mp - (Mp - 0.7 * m.Fy * m.Sy) * (m.lambda_f - lambda_pf) / (lambda_rf - lambda_pf)

/-- `F6_flexure_minor(Sy, Zy, lambda_f, Fy, E)`: `phiMny = 0.9 * Mn` elementwise. -/
noncomputable def F6_flexure_minor (ms : List F6Member) (E : ℝ) : List ℝ :=
  ms.map (fun m => 0.9 * F6_Mn E m)

/-! ## F8_flexure_round_hss (AISC Chapter F, F8) -/

/-- Per-member inputs of `F8_flexure_round_hss`. -/
structure F8Member where
  D : ℝ
  t : ℝ
  S : ℝ
  Z : ℝ
  Fy : ℝ

/-- Nominal strength of one round-HSS member (after the applicability assert):
`Mp = Fy*Z` (AISC F8-1), thresholds `lambda_p = 0.07*E/Fy`,
`lambda_r = 0.31*E/Fy`, `is_compact = D/t < lambda_p`,
`is_slender = D/t >= lambda_r`,
`Mn = np.where(is_compact, Mp, np.where(is_slender,
np.minimum(Mp, 0.33*E/(D/t) * S), np.minimum(Mp, (0.021*E/(D/t) + Fy)*S)))`. -/
noncomputable def F8_Mn (E : ℝ) (m : F8Member) : ℝ :=
  let Mp := m.Fy * m.Z
  if m.D / m.t < 0.07 * E / m.Fy then Mp
  else if 0.31 * E / m.Fy ≤ m.D / m.t then min Mp (0.33 * E / (m.D / m.t) * m.S)
  else min Mp ((0.021 * E / (m.D / m.t) + m.Fy) * m.S)

/-- `F8_flexure_round_hss(D, t, S, Z, Fy, E)` with its applicability guard
`assert np.all(D/t < 0.45*E/Fy)`. -/
noncomputable def F8_flexure_round_hss (ms : List F8Member) (E : ℝ) :
    Except PyError (List ℝ) :=
  if ∀ m ∈ ms, m.D / m.t < 0.45 * E / m.Fy then
    Except.ok (ms.map (fun m => 0.9 * F8_Mn E m))
  else Except.error PyError.assertionError

/-! ## F9_flexure_t_2l (AISC Chapter F, F9) -/

/-- Warnings the engine can emit.  `F9unverified` is the
`warnings.warn("F9 provisions might not be correctly implemented.")` call
issued unconditionally at the top of `F9_flexure_t_2l`. -/
inductive PyWarning
  | F9unverified
deriving DecidableEq

/-- Per-member inputs of `F9_flexure_t_2l`.  The `shape` parameter of the
source is accepted but never read by the body (a source TODO notes the
tee/double-angle dispatch is unresolved). -/
structure F9Member where
  shape : SectType
  stem_tension : Bool
  d : ℝ
  tw : ℝ
  Sx : ℝ
  Zx : ℝ
  J : ℝ
  Iy : ℝ
  y : ℝ
  lambda_f : ℝ
  Lb : ℝ
  Fy : ℝ

/-- `np.minimum` on values that may be `np.inf`; `none` models +inf. -/
def optMin : Option ℝ → Option ℝ → Option ℝ
  | none, none => none
  | some a, none => some a
  | none, some b => some b
  | some a, some b => some (min a b)

/-- Per-member body of `F9_flexure_t_2l` (after the warning): the four limit
states of the source — yielding (F9-2/F9-3), lateral-torsional buckling
(F9-4), flange local buckling of tees, stem local buckling — combined by
`phiMn = 0.9*np.minimum(Mn_tension, Mn_lb)`.  `np.inf` placeholders (compact
flange, stem in tension) are the `none` branches. -/
noncomputable def F9_phiMn (E G : ℝ) (m : F9Member) : ℝ :=
  let Mp := if m.stem_tension then min (m.Fy * m.Zx) (1.6 * m.Fy * m.Sx)
            else min (m.Fy * m.Zx) (m.Fy * m.Sx)
  let B := (if m.stem_tension then (1 : ℝ) else -1) * 2.3 * (m.d / m.Lb) *
    Real.sqrt (m.Iy / m.J)
  let Mcr := Real.pi * Real.sqrt (E * m.Iy * G * m.J) / m.Lb * (B + Real.sqrt (1 + B ^ 2))
  let lambda_pf := 0.38 * Real.sqrt (E / m.Fy)
  let lambda_rf := Real.sqrt (E / m.Fy)
  let S_xc := m.Iy / m.y
  let Mn_flb : Option ℝ :=
    if m.lambda_f ≤ lambda_pf then none
    else if lambda_rf ≤ m.lambda_f then some (0.7 * E * S_xc / m.lambda_f ^ 2)
    else some (min (Mp - (Mp - 0.7 * m.Fy * S_xc) *
      (m.lambda_f - lambda_pf) / (lambda_rf - lambda_pf)) (1.6 * m.Fy * m.Sx))
  let d_div_tw := m.d / m.tw
  let Fcr :=
    if d_div_tw ≤ 0.84 * Real.sqrt (E / m.Fy) then m.Fy
    else if d_div_tw ≤ 1.03 * Real.sqrt (E / m.Fy) then
      m.Fy * (2.55 - 1.84 * d_div_tw * Real.sqrt (m.Fy / E))
    else 0.69 * E / d_div_tw ^ 2
  let Mn_tension := min Mp Mcr
  let Mn_lb := optMin Mn_flb (if m.stem_tension then none else some (Fcr * m.Sx))
  0.9 * (match Mn_lb with
         | none => Mn_tension
         | some x => min Mn_tension x)

/-- `F9_flexure_t_2l(...)`: emits the unverified-provision `UserWarning` on
every call and then returns one capacity per member.  The first component is
the list of warnings emitted during the call. -/
noncomputable def F9_flexure_t_2l (ms : List F9Member) (E G : ℝ) :
    List PyWarning × List ℝ :=
  ([PyWarning.F9unverified], ms.map (F9_phiMn E G))

/-! ## H1_interaction (AISC Chapter H) -/

/-- Per-member inputs of `H1_interaction`. -/
structure H1Member where
  Pr : ℝ
  Pc : ℝ
  Mrx : ℝ
  Mcx : ℝ
  Mry : ℝ
  Mcy : ℝ

/-- Per-member body of `H1_interaction` after the sign assert:
`Pr = np.abs(Pr)`, `M_total_int = np.abs(Mrx)/Mcx + np.abs(Mry)/Mcy`,
`DCR = np.where(Pr/Pc >= 0.2, Pr/Pc + 8/9 * M_total_int,
Pr/Pc/2 + M_total_int)`. -/
noncomputable def H1_DCR (m : H1Member) : ℝ :=
  let Pr := |m.Pr|
  let M_total_int := |m.Mrx| / m.Mcx + |m.Mry| / m.Mcy
  if 0.2 ≤ Pr / m.Pc then Pr / m.Pc + 8 / 9 * M_total_int
  else Pr / m.Pc / 2 + M_total_int

/-- `H1_interaction(Pr, Pc, Mrx, Mcx, Mry, Mcy)` with the same first-element
sign assert as `P_delta`. -/
noncomputable def H1_interaction (ms : List H1Member) : Except PyError (List ℝ) :=
  match ms with
  | [] => Except.error PyError.indexError
  | m0 :: _ =>
    if (if 0 < m0.Pr then ∀ m ∈ ms, 0 < m.Pr else ∀ m ∈ ms, m.Pr < 0) then
      Except.ok (ms.map H1_DCR)
    else Except.error PyError.assertionError

/-! ## Helper lemmas shared between claims -/

/-- The first-element sign gate of the source
(`np.all(Pr > 0) if Pr[0] > 0 else np.all(Pr < 0)`) holds for a nonempty
batch iff the entries are uniformly strictly positive or uniformly strictly
negative. -/
theorem sign_gate_iff {α : Type} (f : α → ℝ) (m0 : α) (tl : List α) :
    (if 0 < f m0 then ∀ m ∈ m0 :: tl, 0 < f m else ∀ m ∈ m0 :: tl, f m < 0)
    ↔ ((∀ m ∈ m0 :: tl, 0 < f m) ∨ (∀ m ∈ m0 :: tl, f m < 0)) := by
  by_cases h : 0 < f m0
  · rw [if_pos h]
    constructor
    · exact Or.inl
    · rintro (ha | ha)
      · exact ha
      · exact absurd (ha m0 (List.mem_cons_self _ _)) (not_lt.mpr (le_of_lt h))
  · rw [if_neg h]
    constructor
    · exact Or.inr
    · rintro (ha | ha)
      · exact absurd (ha m0 (List.mem_cons_self _ _)) h
      · exact ha

/-- Helper: a uniformly signed nonempty batch passes the `P_delta` assert and
gets the elementwise B1 result. -/
theorem P_delta_ok_of_sign (E tao_b alpha : ℝ) (ms : List PDeltaMember)
    (hne : ms ≠ [])
    (hsign : (∀ m ∈ ms, 0 < m.Pr) ∨ (∀ m ∈ ms, m.Pr < 0)) :
    P_delta ms E tao_b alpha = Except.ok (ms.map (P_delta_B1 E tao_b alpha)) := by
  cases ms with
  | nil => exact absurd rfl hne
  | cons m0 tl =>
    simp only [P_delta]
    rw [if_pos ((sign_gate_iff (fun m => m.Pr) m0 tl).mpr hsign)]

/-- Helper: a mixed-sign nonempty batch fails the `P_delta` assert. -/
theorem P_delta_err_of_mixed (E tao_b alpha : ℝ) (ms : List PDeltaMember)
    (hne : ms ≠ [])
    (hmix : ¬ ((∀ m ∈ ms, 0 < m.Pr) ∨ (∀ m ∈ ms, m.Pr < 0))) :
    P_delta ms E tao_b alpha = Except.error PyError.assertionError := by
  cases ms with
  | nil => exact absurd rfl hne
  | cons m0 tl =>
    simp only [P_delta]
    rw [if_neg (fun h => hmix ((sign_gate_iff (fun m => m.Pr) m0 tl).mp h))]

/-- Helper: a uniformly signed nonempty batch passes the `H1_interaction`
assert and gets the elementwise DCR result. -/
theorem H1_ok_of_sign (ms : List H1Member) (hne : ms ≠ [])
    (hsign : (∀ m ∈ ms, 0 < m.Pr) ∨ (∀ m ∈ ms, m.Pr < 0)) :
    H1_interaction ms = Except.ok (ms.map H1_DCR) := by
  cases ms with
  | nil => exact absurd rfl hne
  | cons m0 tl =>
    simp only [H1_interaction]
    rw [if_pos ((sign_gate_iff (fun m => m.Pr) m0 tl).mpr hsign)]

/-- Helper: a mixed-sign nonempty batch fails the `H1_interaction` assert. -/
theorem H1_err_of_mixed (ms : List H1Member) (hne : ms ≠ [])
    (hmix : ¬ ((∀ m ∈ ms, 0 < m.Pr) ∨ (∀ m ∈ ms, m.Pr < 0))) :
    H1_interaction ms = Except.error PyError.assertionError := by
  cases ms with
  | nil => exact absurd rfl hne
  | cons m0 tl =>
    simp only [H1_interaction]
    rw [if_neg (fun h => hmix ((sign_gate_iff (fun m => m.Pr) m0 tl).mp h))]

/-! ## Claim theorems -/

/-- C9: every call to `F9_flexure_t_2l` emits exactly the non-fatal
unverified-provision warning, and execution still proceeds to return one
capacity value per member; the warning never aborts the call (the result
type is a total pair of warnings and values, not an error). -/
theorem F9_warning_nonfatal (ms : List F9Member) (E G : ℝ) :
    (F9_flexure_t_2l ms E G).1 = [PyWarning.F9unverified]
    ∧ (F9_flexure_t_2l ms E G).2.length = ms.length := by
  refine ⟨rfl, ?_⟩
  simp [F9_flexure_t_2l]

/-- C1: the claim that the explicit-parameter mode of `F2_flexure_major`
succeeds and agrees with the bundle mode is falsified by the code: with
`props=None` the body reads the never-assigned local `section` (the
parameter is spelled `section_type` and is dead), so the explicit mode
always raises `UnboundLocalError`, while the same section supplied as a
bundle succeeds.  Concrete instance: one W-shape member with `Lb=5`,
`Fy=50`, `Cb=1`, `ho=10`, `J=1`, `Sx=20`, `Zx=22`, `ry=2`, `rts=2.5`. -/
theorem F2_explicit_mode_unbound :
    F2_flexure_major [⟨5, 50, 1⟩] (some [SectType.W]) (some [10]) (some [1])
        (some [20]) (some [22]) (some [2]) (some [2.5]) (some [50]) (some [100])
        none 29000 = Except.error PyError.unboundLocal
    ∧ F2_flexure_major [⟨5, 50, 1⟩] none none none none none none none none none
        (some [⟨SectType.W, 10, 1, 20, 22, 2, 2.5, 50, 100⟩]) 29000
      = Except.ok [F2_phiMnx 29000 ⟨5, 50, 1⟩ ⟨SectType.W, 10, 1, 20, 22, 2, 2.5, 0, 1⟩] := by
  constructor
  · rfl
  · have h : ∀ s ∈ F2_unpack [(⟨SectType.W, 10, 1, 20, 22, 2, 2.5, 50, 100⟩ : F2PropsRow)],
        s.sect = SectType.W ∨ s.sect = SectType.C := by
      intro s hs
      have : s = (⟨SectType.W, 10, 1, 20, 22, 2, 2.5, 0, 1⟩ : F2Explicit) := by
        simpa [F2_unpack] using hs
      rw [this]
      exact Or.inl rfl
    simp only [F2_flexure_major]
    rw [if_pos h]
    rfl

/-- C2: a nonempty batch `Pr` whose entries are not uniformly positive nor
uniformly negative (e.g. `[100, -50]`) makes both `P_delta` and
`H1_interaction` fail the whole call with the precondition
(`AssertionError`) and return no numeric result; a uniformly signed batch
succeeds, and the numeric results use only the magnitudes `|Pr|`. -/
theorem sign_precondition (E tao_b alpha : ℝ)
    (pms : List PDeltaMember) (hms : List H1Member)
    (hpne : pms ≠ []) (hhne : hms ≠ []) :
    (¬ ((∀ m ∈ pms, 0 < m.Pr) ∨ (∀ m ∈ pms, m.Pr < 0)) →
      P_delta pms E tao_b alpha = Except.error PyError.assertionError) ∧
    (¬ ((∀ m ∈ hms, 0 < m.Pr) ∨ (∀ m ∈ hms, m.Pr < 0)) →
      H1_interaction hms = Except.error PyError.assertionError) ∧
    (((∀ m ∈ pms, 0 < m.Pr) ∨ (∀ m ∈ pms, m.Pr < 0)) →
      P_delta pms E tao_b alpha = Except.ok (pms.map (fun m =>
        m.Cm / (1 - alpha * |m.Pr| /
          (Real.pi ^ 2 * 0.8 * tao_b * E * m.I / m.Lb ^ 2))))) ∧
    (((∀ m ∈ hms, 0 < m.Pr) ∨ (∀ m ∈ hms, m.Pr < 0)) →
      H1_interaction hms = Except.ok (hms.map (fun m =>
        if 0.2 ≤ |m.Pr| / m.Pc
        then |m.Pr| / m.Pc + 8 / 9 * (|m.Mrx| / m.Mcx + |m.Mry| / m.Mcy)
        else |m.Pr| / m.Pc / 2 + (|m.Mrx| / m.Mcx + |m.Mry| / m.Mcy)))) := by
  refine ⟨fun hmix => P_delta_err_of_mixed E tao_b alpha pms hpne hmix,
          fun hmix => H1_err_of_mixed hms hhne hmix,
          fun hsign => P_delta_ok_of_sign E tao_b alpha pms hpne hsign,
          fun hsign => H1_ok_of_sign hms hhne hsign⟩

/-- C2 witness: `Pr = [100, -50]` fails both calls; the singleton batch
`Pr = [100]` makes `P_delta` succeed with the magnitude-based formula. -/
theorem sign_precondition_witness :
    P_delta [⟨100, 1, 1, 1⟩, ⟨-50, 1, 1, 1⟩] 29000 1 1
      = Except.error PyError.assertionError
    ∧ H1_interaction [⟨100, 400, 50, 200, 10, 80⟩, ⟨-50, 400, 50, 200, 10, 80⟩]
      = Except.error PyError.assertionError
    ∧ P_delta [⟨100, 1, 1, 1⟩] 29000 1 1
      = Except.ok ([(⟨100, 1, 1, 1⟩ : PDeltaMember)].map (fun m =>
          m.Cm / (1 - 1 * |m.Pr| /
            (Real.pi ^ 2 * 0.8 * 1 * 29000 * m.I / m.Lb ^ 2)))) := by
  have hmixP : ¬ ((∀ m ∈ [(⟨100, 1, 1, 1⟩ : PDeltaMember), ⟨-50, 1, 1, 1⟩], 0 < m.Pr)
      ∨ (∀ m ∈ [(⟨100, 1, 1, 1⟩ : PDeltaMember), ⟨-50, 1, 1, 1⟩], m.Pr < 0)) := by
    rintro (h | h)
    · have := h ⟨-50, 1, 1, 1⟩ (List.mem_cons_of_mem _ (List.mem_cons_self _ _))
      norm_num at this
    · have := h ⟨100, 1, 1, 1⟩ (List.mem_cons_self _ _)
      norm_num at this
  have hmixH : ¬ ((∀ m ∈ [(⟨100, 400, 50, 200, 10, 80⟩ : H1Member), ⟨-50, 400, 50, 200, 10, 80⟩], 0 < m.Pr)
      ∨ (∀ m ∈ [(⟨100, 400, 50, 200, 10, 80⟩ : H1Member), ⟨-50, 400, 50, 200, 10, 80⟩], m.Pr < 0)) := by
    rintro (h | h)
    · have := h ⟨-50, 400, 50, 200, 10, 80⟩ (List.mem_cons_of_mem _ (List.mem_cons_self _ _))
      norm_num at this
    · have := h ⟨100, 400, 50, 200, 10, 80⟩ (List.mem_cons_self _ _)
      norm_num at this
  have hpos : ∀ m ∈ [(⟨100, 1, 1, 1⟩ : PDeltaMember)], 0 < m.Pr := by
    intro m hm
    have : m = (⟨100, 1, 1, 1⟩ : PDeltaMember) := by simpa using hm
    rw [this]
    norm_num
  exact ⟨(sign_precondition 29000 1 1 [⟨100, 1, 1, 1⟩, ⟨-50, 1, 1, 1⟩]
            [⟨100, 400, 50, 200, 10, 80⟩, ⟨-50, 400, 50, 200, 10, 80⟩]
            (by simp) (by simp)).1 hmixP,
         (sign_precondition 29000 1 1 [⟨100, 1, 1, 1⟩]
            [⟨100, 400, 50, 200, 10, 80⟩, ⟨-50, 400, 50, 200, 10, 80⟩]
            (by simp) (by simp)).2.1 hmixH,
         (sign_precondition 29000 1 1 [⟨100, 1, 1, 1⟩]
            [⟨100, 400, 50, 200, 10, 80⟩]
            (by simp) (by simp)).2.2.1 (Or.inl hpos)⟩

set_option linter.unusedVariables false in
/-- C10: when the first entry of `Pr` is exactly zero, the source's sign
gate takes the `else` branch and demands every entry be strictly negative,
so any such batch containing a nonnegative entry — in particular an
all-zero batch — raises the mixed-sign precondition error in both
`P_delta` and `H1_interaction`. -/
theorem zero_first_entry_rejected (E tao_b alpha : ℝ)
    (p0 : PDeltaMember) (ptl : List PDeltaMember)
    (h0 : H1Member) (htl : List H1Member)
    (hp0 : p0.Pr = 0) (hh0 : h0.Pr = 0)
    (hpn : ∃ m ∈ p0 :: ptl, 0 ≤ m.Pr) (hhn : ∃ m ∈ h0 :: htl, 0 ≤ m.Pr) :
    P_delta (p0 :: ptl) E tao_b alpha = Except.error PyError.assertionError
    ∧ H1_interaction (h0 :: htl) = Except.error PyError.assertionError := by
  constructor
  · refine P_delta_err_of_mixed E tao_b alpha (p0 :: ptl) (by simp) ?_
    rintro (h | h)
    · have := h p0 (List.mem_cons_self _ _)
      rw [hp0] at this
      exact lt_irrefl 0 this
    · have := h p0 (List.mem_cons_self _ _)
      rw [hp0] at this
      exact lt_irrefl 0 this
  · refine H1_err_of_mixed (h0 :: htl) (by simp) ?_
    rintro (h | h)
    · have := h h0 (List.mem_cons_self _ _)
      rw [hh0] at this
      exact lt_irrefl 0 this
    · have := h h0 (List.mem_cons_self _ _)
      rw [hh0] at this
      exact lt_irrefl 0 this

/-- C10 witness: all-zero batches of length two are rejected by both calls. -/
theorem zero_first_entry_rejected_witness :
    P_delta [⟨0, 1, 1, 1⟩, ⟨0, 1, 1, 1⟩] 29000 1 1
      = Except.error PyError.assertionError
    ∧ H1_interaction [⟨0, 400, 50, 200, 10, 80⟩, ⟨0, 400, 50, 200, 10, 80⟩]
      = Except.error PyError.assertionError :=
  zero_first_entry_rejected 29000 1 1 ⟨0, 1, 1, 1⟩ [⟨0, 1, 1, 1⟩]
    ⟨0, 400, 50, 200, 10, 80⟩ [⟨0, 400, 50, 200, 10, 80⟩] rfl rfl
    ⟨⟨0, 1, 1, 1⟩, List.mem_cons_self _ _, le_refl 0⟩
    ⟨⟨0, 400, 50, 200, 10, 80⟩, List.mem_cons_self _ _, le_refl 0⟩

/-- C8: for a uniformly signed batch, `H1_interaction` returns per member
`DCR = |Pr|/Pc + 8/9*(|Mrx|/Mcx + |Mry|/Mcy)` when `|Pr|/Pc >= 0.2` and
`DCR = |Pr|/Pc/2 + (|Mrx|/Mcx + |Mry|/Mcy)` otherwise (the axial term is
the magnitude per the sign precondition). -/
theorem H1_DCR_formula (hms : List H1Member) (hne : hms ≠ [])
    (hsign : (∀ m ∈ hms, 0 < m.Pr) ∨ (∀ m ∈ hms, m.Pr < 0)) :
    H1_interaction hms = Except.ok (hms.map (fun m =>
      if 0.2 ≤ |m.Pr| / m.Pc
      then |m.Pr| / m.Pc + 8 / 9 * (|m.Mrx| / m.Mcx + |m.Mry| / m.Mcy)
      else |m.Pr| / m.Pc / 2 + (|m.Mrx| / m.Mcx + |m.Mry| / m.Mcy))) :=
  H1_ok_of_sign hms hne hsign

/-- C8 witness: the spec scenario `Pr=100, Pc=400, Mrx=50, Mcx=200, Mry=10,
Mcy=80` gives `DCR = 0.25 + 8/9*0.375 = 7/12`. -/
theorem H1_DCR_formula_witness :
    H1_interaction [⟨100, 400, 50, 200, 10, 80⟩] = Except.ok [7 / 12] := by
  have hpos : ∀ m ∈ [(⟨100, 400, 50, 200, 10, 80⟩ : H1Member)], 0 < m.Pr := by
    intro m hm
    have : m = (⟨100, 400, 50, 200, 10, 80⟩ : H1Member) := by simpa using hm
    rw [this]
    norm_num
  rw [H1_DCR_formula [⟨100, 400, 50, 200, 10, 80⟩] (by simp) (Or.inl hpos)]
  norm_num

/-- Helper: per-member critical-stress bound for E3 under valid inputs. -/
theorem E3_Fcr_le_Fy_mem (E : ℝ) (m : E3Member) (hE : 0 < E)
    (hrx : 0 < m.rx) (hry : 0 < m.ry) (hLb : 0 < m.Lb) (hFy : 0 < m.Fy) :
    E3_Fcr E m ≤ m.Fy := by
  have hrmin : 0 < min m.rx m.ry := lt_min hrx hry
  have hFe : 0 < Real.pi ^ 2 * E / (m.Lb / min m.rx m.ry) ^ 2 :=
    div_pos (mul_pos (pow_pos Real.pi_pos 2) hE) (pow_pos (div_pos hLb hrmin) 2)
  simp only [E3_Fcr]
  split_ifs with h
  · calc (0.658 : ℝ) ^ (m.Fy / (Real.pi ^ 2 * E / (m.Lb / min m.rx m.ry) ^ 2)) * m.Fy
        ≤ 1 * m.Fy := by
          refine mul_le_mul_of_nonneg_right ?_ (le_of_lt hFy)
          exact Real.rpow_le_one (by norm_num) (by norm_num)
            (le_of_lt (div_pos hFy hFe))
    _ = m.Fy := one_mul _
  · push_neg at h
    rw [lt_div_iff₀ hFe] at h
    nlinarith [hFe]

/-- C6: for valid (strictly positive) inputs, the elementwise E3
classification keeps `Fcr` at or below yield, hence every returned strength
satisfies `phiPn <= 0.9 * Fy * A`. -/
theorem E3_Fcr_le_yield (E : ℝ) (ms : List E3Member) (hE : 0 < E)
    (h : ∀ m ∈ ms, 0 < m.A ∧ 0 < m.rx ∧ 0 < m.ry ∧ 0 < m.Lb ∧ 0 < m.Fy) :
    List.Forall₂ (fun (m : E3Member) (phiPn : ℝ) =>
      E3_Fcr E m ≤ m.Fy ∧ phiPn ≤ 0.9 * m.Fy * m.A)
      ms (E3_compression ms E) := by
  unfold E3_compression
  rw [List.forall₂_map_right_iff, List.forall₂_same]
  intro m hm
  obtain ⟨hA, hrx, hry, hLb, hFy⟩ := h m hm
  have hb := E3_Fcr_le_Fy_mem E m hE hrx hry hLb hFy
  exact ⟨hb, by nlinarith⟩

/-- C6 witness: the spec's E3 scenario `A=10, rx=4, ry=2, Lb=120, Fy=50,
E=29000` satisfies the bound. -/
theorem E3_Fcr_le_yield_witness :
    List.Forall₂ (fun (m : E3Member) (phiPn : ℝ) =>
      E3_Fcr 29000 m ≤ m.Fy ∧ phiPn ≤ 0.9 * m.Fy * m.A)
      [⟨10, 4, 2, 120, 50⟩] (E3_compression [⟨10, 4, 2, 120, 50⟩] 29000) :=
  E3_Fcr_le_yield 29000 [⟨10, 4, 2, 120, 50⟩] (by norm_num)
    (by
      intro m hm
      have hm' : m = (⟨10, 4, 2, 120, 50⟩ : E3Member) := by simpa using hm
      rw [hm']
      exact ⟨by norm_num, by norm_num, by norm_num, by norm_num, by norm_num⟩)

/-- C5: `F8_flexure_round_hss` fails with the applicability assertion as
soon as one member has `D/t` at or above `0.45*E/Fy`; when every member is
below the bound, the call succeeds and each member is classified compact
(`Mn = Mp`), slender, or noncompact exactly by the `0.07*E/Fy` and
`0.31*E/Fy` thresholds on `D/t`. -/
theorem F8_applicability (E : ℝ) (ms : List F8Member)
    (hE : 0 < E) (hFy : ∀ m ∈ ms, 0 < m.Fy) :
    ((∃ m ∈ ms, 0.45 * E / m.Fy ≤ m.D / m.t) →
      F8_flexure_round_hss ms E = Except.error PyError.assertionError)
    ∧ ((∀ m ∈ ms, m.D / m.t < 0.45 * E / m.Fy) →
      F8_flexure_round_hss ms E = Except.ok (ms.map (fun m => 0.9 * F8_Mn E m))
      ∧ List.Forall₂ (fun (m : F8Member) (r : ℝ) =>
          (m.D / m.t < 0.07 * E / m.Fy → r = 0.9 * (m.Fy * m.Z))
          ∧ (0.31 * E / m.Fy ≤ m.D / m.t →
              r = 0.9 * min (m.Fy * m.Z) (0.33 * E / (m.D / m.t) * m.S))
          ∧ (0.07 * E / m.Fy ≤ m.D / m.t → m.D / m.t < 0.31 * E / m.Fy →
              r = 0.9 * min (m.Fy * m.Z) ((0.021 * E / (m.D / m.t) + m.Fy) * m.S)))
        ms (ms.map (fun m => 0.9 * F8_Mn E m))) := by
  constructor
  · rintro ⟨m, hm, hge⟩
    simp only [F8_flexure_round_hss]
    rw [if_neg]
    intro hall
    exact absurd (hall m hm) (not_lt.mpr hge)
  · intro hall
    constructor
    · simp only [F8_flexure_round_hss]
      rw [if_pos hall]
    · rw [List.forall₂_map_right_iff, List.forall₂_same]
      intro m hm
      have hFym := hFy m hm
      have hlt : 0.07 * E / m.Fy < 0.31 * E / m.Fy :=
        (div_lt_div_iff_of_pos_right hFym).mpr (by nlinarith)
      refine ⟨?_, ?_, ?_⟩
      · intro hcpt
        simp only [F8_Mn]
        rw [if_pos hcpt]
      · intro hsl
        simp only [F8_Mn]
        rw [if_neg (not_lt.mpr (le_trans (le_of_lt hlt) hsl)), if_pos hsl]
      · intro h1 h2
        simp only [F8_Mn]
        rw [if_neg (not_lt.mpr h1), if_neg (not_le.mpr h2)]

/-- C5 witness: `D/t = 300` (at/above the limit `261` for `Fy=50`,
`E=29000`) is rejected; the spec example `D=10, t=0.5` (`D/t = 20`, compact
since `20 < 40.6`) succeeds with `Mn = Mp = Fy*Z`. -/
theorem F8_applicability_witness :
    F8_flexure_round_hss [⟨300, 1, 1, 1.2, 50⟩] 29000
      = Except.error PyError.assertionError
    ∧ F8_flexure_round_hss [⟨10, 0.5, 1, 1.2, 50⟩] 29000
      = Except.ok [0.9 * (50 * 1.2)] := by
  constructor
  · refine (F8_applicability 29000 [⟨300, 1, 1, 1.2, 50⟩] (by norm_num) ?_).1 ?_
    · intro m hm
      have hm' : m = (⟨300, 1, 1, 1.2, 50⟩ : F8Member) := by simpa using hm
      rw [hm']
      norm_num
    · exact ⟨⟨300, 1, 1, 1.2, 50⟩, List.mem_cons_self _ _, by norm_num⟩
  · have h := (F8_applicability 29000 [⟨10, 0.5, 1, 1.2, 50⟩] (by norm_num)
      (by
        intro m hm
        have hm' : m = (⟨10, 0.5, 1, 1.2, 50⟩ : F8Member) := by simpa using hm
        rw [hm']
        norm_num)).2
      (by
        intro m hm
        have hm' : m = (⟨10, 0.5, 1, 1.2, 50⟩ : F8Member) := by simpa using hm
        rw [hm']
        norm_num)
    rw [h.1]
    have h2 := h.2
    rw [List.forall₂_map_right_iff, List.forall₂_same] at h2
    have := (h2 ⟨10, 0.5, 1, 1.2, 50⟩ (List.mem_cons_self _ _)).1 (by norm_num)
    rw [List.map_cons, List.map_nil, this]

/-- C3 counterexample: the claim's interpolation formula omits the `Cb`
factor that the source multiplies in (`Mn_inelastic = Cb*(Mp - ...)`).
With `E=4`, `Fy=1`, `Cb=2`, `ho=Sx=Zx=ry=rts=1`, `J=0.3964875` the member
has `Lp = 3.52 < Lb = 5 <= Lr = 78/7`, yet the code returns
`Mn = min(Mp, 2*interp) = 1` while the claim's `min(interp, Mp)` equals
`12563/13340`. -/
theorem F2_threezone_counterexample :
    F2_Lp 4 ⟨5, 1, 2⟩ ⟨SectType.W, 1, 0.3964875, 1, 1, 1, 1, 1, 1⟩ < 5
    ∧ (5 : ℝ) ≤ F2_Lr 4 ⟨5, 1, 2⟩ ⟨SectType.W, 1, 0.3964875, 1, 1, 1, 1, 1, 1⟩
    ∧ F2_Mn 4 ⟨5, 1, 2⟩ ⟨SectType.W, 1, 0.3964875, 1, 1, 1, 1, 1, 1⟩
      ≠ min ((1 : ℝ) * 1 - ((1 : ℝ) * 1 - 0.7 * 1 * 1) *
          ((5 : ℝ) - 1.76 * 1 * Real.sqrt (4 / 1)) /
          (F2_Lr 4 ⟨5, 1, 2⟩ ⟨SectType.W, 1, 0.3964875, 1, 1, 1, 1, 1, 1⟩
            - 1.76 * 1 * Real.sqrt (4 / 1))) ((1 : ℝ) * 1) := by
  have hs4 : Real.sqrt ((4 : ℝ) / 1) = 2 := by
    rw [show ((4 : ℝ) / 1) = 2 ^ 2 by norm_num, Real.sqrt_sq (by norm_num)]
  have hc0 : F2_c ⟨SectType.W, 1, 0.3964875, 1, 1, 1, 1, 1, 1⟩ = 1 := by
    simp [F2_c]
  have hLp : F2_Lp 4 ⟨5, 1, 2⟩ ⟨SectType.W, 1, 0.3964875, 1, 1, 1, 1, 1, 1⟩ = 3.52 := by
    simp only [F2_Lp]
    rw [hs4]
    norm_num
  have hLr : F2_Lr 4 ⟨5, 1, 2⟩ ⟨SectType.W, 1, 0.3964875, 1, 1, 1, 1, 1, 1⟩ = 78 / 7 := by
    simp only [F2_Lr, hc0]
    rw [show (0.3964875 : ℝ) * 1 / (1 * 1) = 0.3964875 by norm_num]
    rw [show ((0.3964875 : ℝ)) ^ 2 + 6.76 * (0.7 * 1 / 4) ^ 2 = 0.6035125 ^ 2 by norm_num]
    rw [Real.sqrt_sq (by norm_num)]
    rw [show (0.3964875 : ℝ) + 0.6035125 = 1 by norm_num]
    rw [Real.sqrt_one]
    norm_num
  refine ⟨by rw [hLp]; norm_num, by rw [hLr]; norm_num, ?_⟩
  have hinel : F2_Mn_inelastic 4 ⟨5, 1, 2⟩ ⟨SectType.W, 1, 0.3964875, 1, 1, 1, 1, 1, 1⟩
      = 12563 / 6670 := by
    simp only [F2_Mn_inelastic, F2_Mp]
    rw [hLp, hLr]
    norm_num
  have hMn : F2_Mn 4 ⟨5, 1, 2⟩ ⟨SectType.W, 1, 0.3964875, 1, 1, 1, 1, 1, 1⟩ = 1 := by
    simp only [F2_Mn]
    rw [if_neg (by rw [hLp]; norm_num), if_neg (by rw [hLr]; norm_num), hinel]
    rw [show F2_Mp ⟨5, 1, 2⟩ ⟨SectType.W, 1, 0.3964875, 1, 1, 1, 1, 1, 1⟩ = 1 from by
      norm_num [F2_Mp]]
    rw [min_eq_left (by norm_num)]
  rw [hMn, hs4, hLr]
  rw [show ((1 : ℝ) * 1 - ((1 : ℝ) * 1 - 0.7 * 1 * 1) * ((5 : ℝ) - 1.76 * 1 * 2) /
      (78 / 7 - 1.76 * 1 * 2)) = 12563 / 13340 by norm_num]
  rw [min_eq_left (by norm_num)]
  norm_num

/-- C3 (amended): in the inelastic zone `Lp < Lb <= Lr`, `Mn` equals `Cb`
times the linear interpolation `Mp - (Mp - 0.7*Fy*Sx)*(Lb-Lp)/(Lr-Lp)`,
clipped to at most `Mp` (with `Mp = Fy*Zx` and `Lp = 1.76*ry*sqrt(E/Fy)`;
at the default `Cb = 1` this is the claim's formula); for `Lb <= Lp` it
equals `Mp`; and the returned value is `0.9*Mn`. -/
theorem F2_threezone_amended (E : ℝ) (d : F2Demand) (s : F2Explicit) :
    (F2_Lp E d s < d.Lb → d.Lb ≤ F2_Lr E d s →
      F2_Mn E d s = min (d.Cb * (d.Fy * s.Zx - (d.Fy * s.Zx - 0.7 * d.Fy * s.Sx) *
        (d.Lb - 1.76 * s.ry * Real.sqrt (E / d.Fy)) /
        (F2_Lr E d s - 1.76 * s.ry * Real.sqrt (E / d.Fy)))) (d.Fy * s.Zx))
    ∧ (d.Lb ≤ 1.76 * s.ry * Real.sqrt (E / d.Fy) → F2_Mn E d s = d.Fy * s.Zx)
    ∧ F2_phiMnx E d s = 0.9 * F2_Mn E d s := by
  refine ⟨?_, ?_, rfl⟩
  · intro h1 h2
    have e2 : F2_Mp d s = d.Fy * s.Zx := rfl
    have e1 : F2_Mn_inelastic E d s = d.Cb * (d.Fy * s.Zx -
        (d.Fy * s.Zx - 0.7 * d.Fy * s.Sx) *
        (d.Lb - 1.76 * s.ry * Real.sqrt (E / d.Fy)) /
        (F2_Lr E d s - 1.76 * s.ry * Real.sqrt (E / d.Fy))) := by
      simp only [F2_Mn_inelastic, F2_Mp, F2_Lp]
    simp only [F2_Mn]
    rw [if_neg (not_le.mpr h1), if_neg (not_lt.mpr h2), min_comm, e1, e2]
  · intro h
    have h' : d.Lb ≤ F2_Lp E d s := by simpa [F2_Lp] using h
    simp only [F2_Mn]
    rw [if_pos h']
    rfl

/-- C3 witness: with `E=4`, `Fy=Cb=1`, `ho=J=Sx=Zx=ry=rts=1` we get
`Lp = 3.52 < 5` and `Lr = (78/7)*sqrt(1 + sqrt(1 + 6.76*0.175^2)) >= 5`,
so `Lb = 5` lies in the inelastic zone. -/
theorem F2_threezone_amended_witness :
    F2_Lp 4 ⟨5, 1, 1⟩ ⟨SectType.W, 1, 1, 1, 1, 1, 1, 1, 1⟩ < 5
    ∧ (5 : ℝ) ≤ F2_Lr 4 ⟨5, 1, 1⟩ ⟨SectType.W, 1, 1, 1, 1, 1, 1, 1, 1⟩
    ∧ F2_Mn 4 ⟨5, 1, 1⟩ ⟨SectType.W, 1, 1, 1, 1, 1, 1, 1, 1⟩
      = min ((1 : ℝ) * ((1 : ℝ) * 1 - ((1 : ℝ) * 1 - 0.7 * 1 * 1) *
          ((5 : ℝ) - 1.76 * 1 * Real.sqrt (4 / 1)) /
          (F2_Lr 4 ⟨5, 1, 1⟩ ⟨SectType.W, 1, 1, 1, 1, 1, 1, 1, 1⟩
            - 1.76 * 1 * Real.sqrt (4 / 1)))) ((1 : ℝ) * 1) := by
  have hs4 : Real.sqrt ((4 : ℝ) / 1) = 2 := by
    rw [show ((4 : ℝ) / 1) = 2 ^ 2 by norm_num, Real.sqrt_sq (by norm_num)]
  have hLp : F2_Lp 4 ⟨5, 1, 1⟩ ⟨SectType.W, 1, 1, 1, 1, 1, 1, 1, 1⟩ < 5 := by
    simp only [F2_Lp]
    rw [hs4]
    norm_num
  have hLr : (5 : ℝ) ≤ F2_Lr 4 ⟨5, 1, 1⟩ ⟨SectType.W, 1, 1, 1, 1, 1, 1, 1, 1⟩ := by
    simp only [F2_Lr, F2_c, if_pos]
    have hmono : (1 : ℝ) ≤ Real.sqrt (1 * 1 / (1 * 1) +
        Real.sqrt ((1 * 1 / (1 * 1)) ^ 2 + 6.76 * (0.7 * 1 / 4) ^ 2)) := by
      apply Real.le_sqrt_of_sq_le
      nlinarith [Real.sqrt_nonneg (((1 : ℝ) * 1 / (1 * 1)) ^ 2 + 6.76 * (0.7 * 1 / 4) ^ 2)]
    nlinarith [hmono]
  exact ⟨hLp, hLr,
    (F2_threezone_amended 4 ⟨5, 1, 1⟩ ⟨SectType.W, 1, 1, 1, 1, 1, 1, 1, 1⟩).1 hLp hLr⟩

/-- C4 counterexample: for F8 the compact test is strict (`D/t < lambda_p`),
so a member sitting exactly at the compact/noncompact threshold is
noncompact; with `E=100`, `Fy=1`, `D/t = 7 = 0.07*E/Fy`, `S=1`, `Z=2` the
code returns `Mn = min(Mp, 1.3) = 1.3`, not the plastic moment `Mp = 2`. -/
theorem F8_threshold_counterexample :
    (7 : ℝ) / 1 = 0.07 * 100 / 1
    ∧ F8_Mn 100 ⟨7, 1, 1, 2, 1⟩ = 1.3
    ∧ F8_Mn 100 ⟨7, 1, 1, 2, 1⟩ ≠ 1 * 2 := by
  have hv : F8_Mn 100 ⟨7, 1, 1, 2, 1⟩ = 1.3 := by
    simp only [F8_Mn]
    rw [if_neg (by norm_num), if_neg (by norm_num)]
    rw [min_eq_right (by norm_num)]
    norm_num
  refine ⟨by norm_num, hv, ?_⟩
  rw [hv]
  norm_num

/-- C4 (amended): at `Lb = Lp` F2 returns `Mn = Mp`, and at
`lambda_f = lambda_pf` F6 returns `Mn = Mp`; but at `D/t = 0.07*E/Fy` F8
classifies the member as noncompact and returns
`Mn = min(Mp, 1.3*Fy*S)` — equal to `Mp` only when `Fy*Z <= 1.3*Fy*S`. -/
theorem boundary_continuity_amended (E : ℝ) (d : F2Demand) (s : F2Explicit)
    (f6 : F6Member) (m : F8Member)
    (hE : 0 < E) (hFy : 0 < m.Fy) (hDt : m.D / m.t = 0.07 * E / m.Fy) :
    (d.Lb = F2_Lp E d s → F2_Mn E d s = d.Fy * s.Zx)
    ∧ (f6.lambda_f = 0.38 * Real.sqrt (E / f6.Fy) →
        F6_Mn E f6 = min (f6.Fy * f6.Zy) (1.6 * f6.Fy * f6.Sy))
    ∧ F8_Mn E m = min (m.Fy * m.Z) (1.3 * m.Fy * m.S) := by
  refine ⟨?_, ?_, ?_⟩
  · intro h
    simp only [F2_Mn]
    rw [if_pos (le_of_eq h)]
    rfl
  · intro h
    simp only [F6_Mn]
    rw [if_pos (le_of_eq h)]
  · have hEFy : 0 < E / m.Fy := div_pos hE hFy
    have h1 : ¬ (m.D / m.t < 0.07 * E / m.Fy) := by
      rw [hDt]
      exact lt_irrefl _
    have h2 : ¬ (0.31 * E / m.Fy ≤ m.D / m.t) := by
      rw [hDt]
      intro hc
      have e1 : (0.31 : ℝ) * E / m.Fy = 0.31 * (E / m.Fy) := by ring
      have e2 : (0.07 : ℝ) * E / m.Fy = 0.07 * (E / m.Fy) := by ring
      rw [e1, e2] at hc
      linarith
    simp only [F8_Mn]
    rw [if_neg h1, if_neg h2, hDt]
    congr 1
    have hE' : E ≠ 0 := ne_of_gt hE
    have hFy' : m.Fy ≠ 0 := ne_of_gt hFy
    field_simp
    ring

/-- C4 witness: with `E=4` the boundary inputs are `Lb = Lp = 3.52` for F2,
`lambda_f = lambda_pf = 0.76` for F6, and `D/t = 0.28 = 0.07*E/Fy` for F8. -/
theorem boundary_continuity_witness :
    F2_Mn 4 ⟨3.52, 1, 1⟩ ⟨SectType.W, 1, 1, 1, 1, 1, 1, 1, 1⟩ = 1 * 1
    ∧ F6_Mn 4 ⟨1, 1, 0.76, 1⟩ = min ((1 : ℝ) * 1) (1.6 * 1 * 1)
    ∧ F8_Mn 4 ⟨0.28, 1, 1, 2, 1⟩ = min ((1 : ℝ) * 2) (1.3 * 1 * 1) := by
  have hs4 : Real.sqrt ((4 : ℝ) / 1) = 2 := by
    rw [show ((4 : ℝ) / 1) = 2 ^ 2 by norm_num, Real.sqrt_sq (by norm_num)]
  have h := boundary_continuity_amended 4 ⟨3.52, 1, 1⟩ ⟨SectType.W, 1, 1, 1, 1, 1, 1, 1, 1⟩
    ⟨1, 1, 0.76, 1⟩ ⟨0.28, 1, 1, 2, 1⟩ (by norm_num) (by norm_num) (by norm_num)
  refine ⟨h.1 ?_, h.2.1 ?_, h.2.2⟩
  · show (3.52 : ℝ) = F2_Lp 4 ⟨3.52, 1, 1⟩ ⟨SectType.W, 1, 1, 1, 1, 1, 1, 1, 1⟩
    simp only [F2_Lp]
    rw [hs4]
    norm_num
  · show (0.76 : ℝ) = 0.38 * Real.sqrt ((4 : ℝ) / 1)
    rw [hs4]
    norm_num

/-- Helper: the source's `Mn` never exceeds the plastic moment. -/
theorem F2_Mn_le_Mp (E : ℝ) (d : F2Demand) (s : F2Explicit) :
    F2_Mn E d s ≤ F2_Mp d s := by
  simp only [F2_Mn]
  split_ifs
  · exact le_refl _
  · exact min_le_left _ _
  · exact min_le_left _ _

/-- Helper: the AISC F2-6 limiting length `Lr` is calibrated so that the
elastic LTB expression evaluated at `X = (Lr/rts)^2 = 3.8025/b^2*(u+sq)`
(`b = 0.7*Fy/E`, `u = J*c/(Sx*ho)`, `sq = sqrt(u^2+6.76*b^2)`) stays below
the inelastic anchor stress: `pi^2*sqrt(1+0.078*u*X) <= b*X`.  This uses
`pi^4 <= 97.41 < 3.8025^2*6.76 = 97.74` and
`0.296595*97.41 < 28.891 < 28.918 = 2*14.459*0.078*3.8025/0.3*...`,
i.e. the 1.95 constant slightly over-approximates `pi`-exact calibration. -/
theorem F2_key_ineq (u b sq X : ℝ) (hu : 0 < u) (hb : 0 < b)
    (hsq0 : 0 ≤ sq) (hsq2 : sq ^ 2 = u ^ 2 + 6.76 * b ^ 2)
    (hX : X = 3.8025 / b ^ 2 * (u + sq)) :
    Real.pi ^ 2 * Real.sqrt (1 + 0.078 * u * X) ≤ b * X := by
  have hus : 0 < u + sq := by linarith
  have hX0 : 0 < X := by
    rw [hX]
    positivity
  have hR0 : 0 ≤ 1 + 0.078 * u * X := by positivity
  have hpi4 : Real.pi ^ 4 ≤ 97.41 := by
    have h1 : Real.pi < 3.141593 := Real.pi_lt_d6
    have h0 : 0 < Real.pi := Real.pi_pos
    have h2 : Real.pi ^ 2 < 9.8696066 := by nlinarith
    nlinarith [h2, h0, sq_nonneg Real.pi]
  have ht : 0 ≤ u * (u + sq) := by positivity
  have hexp : (u + sq) ^ 2 = 2 * (u * (u + sq)) + 6.76 * b ^ 2 := by
    linear_combination hsq2
  have key2 : Real.pi ^ 4 * b ^ 2 + 0.296595 * Real.pi ^ 4 * (u * (u + sq))
      ≤ 14.45900625 * (u + sq) ^ 2 := by
    rw [hexp]
    nlinarith [mul_nonneg (sub_nonneg.mpr hpi4) (sq_nonneg b),
      mul_nonneg (sub_nonneg.mpr hpi4) ht]
  have hb2 : (0 : ℝ) < b ^ 2 := by positivity
  have hbne : b ≠ 0 := ne_of_gt hb
  have key : Real.pi ^ 4 * (1 + 0.078 * u * X) ≤ (b * X) ^ 2 := by
    rw [hX]
    refine (mul_le_mul_right hb2).mp ?_
    calc Real.pi ^ 4 * (1 + 0.078 * u * (3.8025 / b ^ 2 * (u + sq))) * b ^ 2
        = Real.pi ^ 4 * b ^ 2 + 0.296595 * Real.pi ^ 4 * (u * (u + sq)) := by
          field_simp
          ring
      _ ≤ 14.45900625 * (u + sq) ^ 2 := key2
      _ = (b * (3.8025 / b ^ 2 * (u + sq))) ^ 2 * b ^ 2 := by
          field_simp
          ring
  calc Real.pi ^ 2 * Real.sqrt (1 + 0.078 * u * X)
      = Real.sqrt ((Real.pi ^ 2) ^ 2 * (1 + 0.078 * u * X)) := by
        rw [Real.sqrt_mul (by positivity) (1 + 0.078 * u * X),
          Real.sqrt_sq (by positivity)]
    _ ≤ Real.sqrt ((b * X) ^ 2) := Real.sqrt_le_sqrt (by linear_combination key)
    _ = b * X := Real.sqrt_sq (by positivity)

/-- Helper: the elastic LTB moment of F2 is non-increasing in `Lb` on
`(0, ∞)` for fixed (nonnegative) section and material properties. -/
theorem F2_el_antitone (E Fy Cb L1 L2 : ℝ) (s : F2Explicit)
    (hE : 0 ≤ E) (hCb : 0 ≤ Cb) (hSx : 0 ≤ s.Sx) (hrts : 0 < s.rts)
    (hk : 0 ≤ 0.078 * (s.J * F2_c s) / (s.Sx * s.ho))
    (hL1 : 0 < L1) (hL12 : L1 ≤ L2) :
    F2_Mn_elastic E ⟨L2, Fy, Cb⟩ s ≤ F2_Mn_elastic E ⟨L1, Fy, Cb⟩ s := by
  set k := 0.078 * (s.J * F2_c s) / (s.Sx * s.ho) with hk_def
  have hL2 : 0 < L2 := lt_of_lt_of_le hL1 hL12
  have hX1 : 0 < (L1 / s.rts) ^ 2 := by positivity
  have hX2 : 0 < (L2 / s.rts) ^ 2 := by positivity
  have hX12 : (L1 / s.rts) ^ 2 ≤ (L2 / s.rts) ^ 2 := by
    have h12 : L1 / s.rts ≤ L2 / s.rts := by gcongr
    exact pow_le_pow_left₀ (by positivity) h12 2
  have key : Real.sqrt (1 + k * (L2 / s.rts) ^ 2) * (L1 / s.rts) ^ 2
      ≤ Real.sqrt (1 + k * (L1 / s.rts) ^ 2) * (L2 / s.rts) ^ 2 := by
    have e1 : Real.sqrt (1 + k * (L2 / s.rts) ^ 2) * (L1 / s.rts) ^ 2
        = Real.sqrt ((1 + k * (L2 / s.rts) ^ 2) * ((L1 / s.rts) ^ 2) ^ 2) := by
      rw [Real.sqrt_mul (by positivity), Real.sqrt_sq (le_of_lt hX1)]
    have e2 : Real.sqrt (1 + k * (L1 / s.rts) ^ 2) * (L2 / s.rts) ^ 2
        = Real.sqrt ((1 + k * (L1 / s.rts) ^ 2) * ((L2 / s.rts) ^ 2) ^ 2) := by
      rw [Real.sqrt_mul (by positivity), Real.sqrt_sq (le_of_lt hX2)]
    rw [e1, e2]
    apply Real.sqrt_le_sqrt
    nlinarith [mul_nonneg (mul_nonneg (mul_nonneg hk hX1.le) hX2.le)
        (sub_nonneg.mpr hX12),
      mul_nonneg (sub_nonneg.mpr hX12) (by positivity : (0:ℝ) ≤ (L1 / s.rts) ^ 2 + (L2 / s.rts) ^ 2)]
  have hform : ∀ L : ℝ, F2_Mn_elastic E ⟨L, Fy, Cb⟩ s
      = Cb * Real.pi ^ 2 * E * s.Sx *
        (Real.sqrt (1 + k * (L / s.rts) ^ 2) / (L / s.rts) ^ 2) := by
    intro L
    simp only [F2_Mn_elastic]
    rw [← hk_def]
    ring
  rw [hform L1, hform L2]
  refine mul_le_mul_of_nonneg_left ?_ (by positivity)
  rw [div_le_div_iff₀ hX2 hX1]
  exact key

/-- Helper: evaluated at `Lb = Lr`, the elastic LTB moment of F2 is at most
the inelastic-zone anchor `Cb*0.7*Fy*Sx`. -/
theorem F2_el_at_Lr_le (E : ℝ) (d : F2Demand) (s : F2Explicit)
    (hE : 0 < E) (hFy : 0 < d.Fy) (hCb : 0 ≤ d.Cb)
    (hSx : 0 < s.Sx) (hho : 0 < s.ho) (hrts : 0 < s.rts)
    (hJc : 0 < s.J * F2_c s)
    (hLb : d.Lb = F2_Lr E d s) :
    F2_Mn_elastic E d s ≤ d.Cb * (0.7 * d.Fy * s.Sx) := by
  set u := s.J * F2_c s / (s.Sx * s.ho) with hu_def
  have hu : 0 < u := by
    rw [hu_def]
    positivity
  set b := 0.7 * d.Fy / E with hb_def
  have hb : 0 < b := by
    rw [hb_def]
    positivity
  set sq := Real.sqrt (u ^ 2 + 6.76 * b ^ 2) with hsq_def
  have hsq0 : 0 ≤ sq := Real.sqrt_nonneg _
  have hsq2 : sq ^ 2 = u ^ 2 + 6.76 * b ^ 2 := Real.sq_sqrt (by positivity)
  have hus : 0 < u + sq := by linarith
  have hLrval : F2_Lr E d s = 1.95 * s.rts * E / (0.7 * d.Fy) * Real.sqrt (u + sq) := by
    simp only [F2_Lr]
  set X := (d.Lb / s.rts) ^ 2 with hX_def
  have hXval : X = 3.8025 / b ^ 2 * (u + sq) := by
    rw [hX_def, hLb, hLrval]
    have h1 : 1.95 * s.rts * E / (0.7 * d.Fy) * Real.sqrt (u + sq) / s.rts
        = 1.95 * E / (0.7 * d.Fy) * Real.sqrt (u + sq) := by
      field_simp
      ring
    rw [h1, mul_pow, Real.sq_sqrt (le_of_lt hus), hb_def]
    congr 1
    field_simp [ne_of_gt hE, ne_of_gt hFy]
    ring
  have hX0 : 0 < X := by
    rw [hXval]
    positivity
  have hkey := F2_key_ineq u b sq X hu hb hsq0 hsq2 hXval
  have hform : F2_Mn_elastic E d s = d.Cb * E * s.Sx / X *
      (Real.pi ^ 2 * Real.sqrt (1 + 0.078 * u * X)) := by
    simp only [F2_Mn_elastic]
    rw [← hX_def]
    have e : 0.078 * (s.J * F2_c s) / (s.Sx * s.ho) * X = 0.078 * u * X := by
      rw [hu_def]
      ring
    rw [e]
    ring
  rw [hform]
  calc d.Cb * E * s.Sx / X * (Real.pi ^ 2 * Real.sqrt (1 + 0.078 * u * X))
      ≤ d.Cb * E * s.Sx / X * (b * X) :=
        mul_le_mul_of_nonneg_left hkey (by positivity)
    _ = d.Cb * (0.7 * d.Fy * s.Sx) := by
        rw [hb_def]
        field_simp
        ring

set_option linter.unusedVariables false in
/-- C7: for fixed strictly positive section and material properties with
`Mp > 0.7*Fy*Sx`, the nominal moment `Mn` computed by `F2_flexure_major` is
a non-increasing function of the unbraced length `Lb` on `Lb > 0`:
`Lb1 <= Lb2` implies `Mn(Lb1) >= Mn(Lb2)`. -/
theorem F2_Mn_antitone_in_Lb (E Fy Cb Lb1 Lb2 : ℝ) (s : F2Explicit)
    (hE : 0 < E) (hFy : 0 < Fy) (hCb : 0 < Cb)
    (hho : 0 < s.ho) (hJ : 0 < s.J) (hSx : 0 < s.Sx) (hZx : 0 < s.Zx)
    (hry : 0 < s.ry) (hrts : 0 < s.rts) (hIy : 0 < s.Iy) (hCw : 0 < s.Cw)
    (hMp : 0.7 * Fy * s.Sx < Fy * s.Zx)
    (hLb1 : 0 < Lb1) (hL12 : Lb1 ≤ Lb2) :
    F2_Mn E ⟨Lb2, Fy, Cb⟩ s ≤ F2_Mn E ⟨Lb1, Fy, Cb⟩ s := by
  have hc : 0 < F2_c s := by
    simp only [F2_c]
    split_ifs
    · norm_num
    · exact mul_pos (by positivity) (Real.sqrt_pos.mpr (div_pos hIy hCw))
  have hJc : 0 < s.J * F2_c s := mul_pos hJ hc
  have hk : 0 ≤ 0.078 * (s.J * F2_c s) / (s.Sx * s.ho) := by positivity
  by_cases h1 : Lb1 ≤ F2_Lp E ⟨Lb1, Fy, Cb⟩ s
  · have hMn1 : F2_Mn E ⟨Lb1, Fy, Cb⟩ s = F2_Mp ⟨Lb1, Fy, Cb⟩ s := by
      simp only [F2_Mn]
      rw [if_pos h1]
    rw [hMn1]
    exact F2_Mn_le_Mp E ⟨Lb2, Fy, Cb⟩ s
  · push_neg at h1
    have h1b : ¬ (Lb2 ≤ F2_Lp E ⟨Lb2, Fy, Cb⟩ s) := by
      push_neg
      calc F2_Lp E ⟨Lb2, Fy, Cb⟩ s = F2_Lp E ⟨Lb1, Fy, Cb⟩ s := rfl
        _ < Lb1 := h1
        _ ≤ Lb2 := hL12
    by_cases h2 : F2_Lr E ⟨Lb1, Fy, Cb⟩ s < Lb2
    · -- Lb2 in the elastic zone
      have h2b : F2_Lr E ⟨Lb2, Fy, Cb⟩ s < Lb2 := h2
      have hMn2 : F2_Mn E ⟨Lb2, Fy, Cb⟩ s
          = min (F2_Mp ⟨Lb1, Fy, Cb⟩ s) (F2_Mn_elastic E ⟨Lb2, Fy, Cb⟩ s) := by
        simp only [F2_Mn]
        rw [if_neg h1b, if_pos h2b]
        rfl
      rw [hMn2]
      by_cases h3 : F2_Lr E ⟨Lb1, Fy, Cb⟩ s < Lb1
      · -- both in the elastic zone
        have hMn1 : F2_Mn E ⟨Lb1, Fy, Cb⟩ s
            = min (F2_Mp ⟨Lb1, Fy, Cb⟩ s) (F2_Mn_elastic E ⟨Lb1, Fy, Cb⟩ s) := by
          simp only [F2_Mn]
          rw [if_neg (not_le.mpr h1), if_pos h3]
        rw [hMn1]
        exact min_le_min (le_refl _)
          (F2_el_antitone E Fy Cb Lb1 Lb2 s hE.le hCb.le hSx.le hrts hk hLb1 hL12)
      · -- Lb1 in the inelastic zone, Lb2 in the elastic zone
        push_neg at h3
        have hMn1 : F2_Mn E ⟨Lb1, Fy, Cb⟩ s
            = min (F2_Mp ⟨Lb1, Fy, Cb⟩ s) (F2_Mn_inelastic E ⟨Lb1, Fy, Cb⟩ s) := by
          simp only [F2_Mn]
          rw [if_neg (not_le.mpr h1), if_neg (not_lt.mpr h3)]
        rw [hMn1]
        refine min_le_min (le_refl _) ?_
        have hLr_pos : 0 < F2_Lr E ⟨Lb1, Fy, Cb⟩ s := lt_of_lt_of_le hLb1 h3
        have step1 : F2_Mn_elastic E ⟨Lb2, Fy, Cb⟩ s
            ≤ F2_Mn_elastic E ⟨F2_Lr E ⟨Lb1, Fy, Cb⟩ s, Fy, Cb⟩ s :=
          F2_el_antitone E Fy Cb (F2_Lr E ⟨Lb1, Fy, Cb⟩ s) Lb2 s
            hE.le hCb.le hSx.le hrts hk hLr_pos h2.le
        have step2 : F2_Mn_elastic E ⟨F2_Lr E ⟨Lb1, Fy, Cb⟩ s, Fy, Cb⟩ s
            ≤ Cb * (0.7 * Fy * s.Sx) :=
          F2_el_at_Lr_le E ⟨F2_Lr E ⟨Lb1, Fy, Cb⟩ s, Fy, Cb⟩ s
            hE hFy hCb.le hSx hho hrts hJc rfl
        have step3 : Cb * (0.7 * Fy * s.Sx) ≤ F2_Mn_inelastic E ⟨Lb1, Fy, Cb⟩ s := by
          have e1 : F2_Mn_inelastic E ⟨Lb1, Fy, Cb⟩ s
              = Cb * (Fy * s.Zx - (Fy * s.Zx - 0.7 * Fy * s.Sx) *
                (Lb1 - F2_Lp E ⟨Lb1, Fy, Cb⟩ s) /
                (F2_Lr E ⟨Lb1, Fy, Cb⟩ s - F2_Lp E ⟨Lb1, Fy, Cb⟩ s)) := rfl
          rw [e1]
          have hlrlp : 0 < F2_Lr E ⟨Lb1, Fy, Cb⟩ s - F2_Lp E ⟨Lb1, Fy, Cb⟩ s := by
            linarith
          have hA : 0 < Fy * s.Zx - 0.7 * Fy * s.Sx := by linarith
          have hfrac1 : (Lb1 - F2_Lp E ⟨Lb1, Fy, Cb⟩ s) /
              (F2_Lr E ⟨Lb1, Fy, Cb⟩ s - F2_Lp E ⟨Lb1, Fy, Cb⟩ s) ≤ 1 := by
            rw [div_le_one hlrlp]
            linarith
          have key : 0.7 * Fy * s.Sx ≤ Fy * s.Zx - (Fy * s.Zx - 0.7 * Fy * s.Sx) *
              (Lb1 - F2_Lp E ⟨Lb1, Fy, Cb⟩ s) /
              (F2_Lr E ⟨Lb1, Fy, Cb⟩ s - F2_Lp E ⟨Lb1, Fy, Cb⟩ s) := by
            have e : (Fy * s.Zx - 0.7 * Fy * s.Sx) *
                (Lb1 - F2_Lp E ⟨Lb1, Fy, Cb⟩ s) /
                (F2_Lr E ⟨Lb1, Fy, Cb⟩ s - F2_Lp E ⟨Lb1, Fy, Cb⟩ s)
                = (Fy * s.Zx - 0.7 * Fy * s.Sx) *
                  ((Lb1 - F2_Lp E ⟨Lb1, Fy, Cb⟩ s) /
                   (F2_Lr E ⟨Lb1, Fy, Cb⟩ s - F2_Lp E ⟨Lb1, Fy, Cb⟩ s)) := by
              ring
            rw [e]
            nlinarith [mul_le_mul_of_nonneg_left hfrac1 hA.le]
          exact mul_le_mul_of_nonneg_left key hCb.le
        exact le_trans step1 (le_trans step2 step3)
    · -- both in the inelastic zone
      push_neg at h2
      have h2b : ¬ (F2_Lr E ⟨Lb2, Fy, Cb⟩ s < Lb2) := not_lt.mpr h2
      have h3 : Lb1 ≤ F2_Lr E ⟨Lb1, Fy, Cb⟩ s := le_trans hL12 h2
      have hMn2 : F2_Mn E ⟨Lb2, Fy, Cb⟩ s
          = min (F2_Mp ⟨Lb1, Fy, Cb⟩ s) (F2_Mn_inelastic E ⟨Lb2, Fy, Cb⟩ s) := by
        simp only [F2_Mn]
        rw [if_neg h1b, if_neg h2b]
        rfl
      have hMn1 : F2_Mn E ⟨Lb1, Fy, Cb⟩ s
          = min (F2_Mp ⟨Lb1, Fy, Cb⟩ s) (F2_Mn_inelastic E ⟨Lb1, Fy, Cb⟩ s) := by
        simp only [F2_Mn]
        rw [if_neg (not_le.mpr h1), if_neg (not_lt.mpr h3)]
      rw [hMn1, hMn2]
      refine min_le_min (le_refl _) ?_
      have e1 : F2_Mn_inelastic E ⟨Lb1, Fy, Cb⟩ s
          = Cb * (Fy * s.Zx - (Fy * s.Zx - 0.7 * Fy * s.Sx) *
            (Lb1 - F2_Lp E ⟨Lb1, Fy, Cb⟩ s) /
            (F2_Lr E ⟨Lb1, Fy, Cb⟩ s - F2_Lp E ⟨Lb1, Fy, Cb⟩ s)) := rfl
      have e2 : F2_Mn_inelastic E ⟨Lb2, Fy, Cb⟩ s
          = Cb * (Fy * s.Zx - (Fy * s.Zx - 0.7 * Fy * s.Sx) *
            (Lb2 - F2_Lp E ⟨Lb1, Fy, Cb⟩ s) /
            (F2_Lr E ⟨Lb1, Fy, Cb⟩ s - F2_Lp E ⟨Lb1, Fy, Cb⟩ s)) := rfl
      rw [e1, e2]
      have hlrlp : 0 < F2_Lr E ⟨Lb1, Fy, Cb⟩ s - F2_Lp E ⟨Lb1, Fy, Cb⟩ s := by
        linarith
      have hA : 0 < Fy * s.Zx - 0.7 * Fy * s.Sx := by linarith
      have hstep : (Fy * s.Zx - 0.7 * Fy * s.Sx) *
          (Lb1 - F2_Lp E ⟨Lb1, Fy, Cb⟩ s) /
          (F2_Lr E ⟨Lb1, Fy, Cb⟩ s - F2_Lp E ⟨Lb1, Fy, Cb⟩ s)
          ≤ (Fy * s.Zx - 0.7 * Fy * s.Sx) *
            (Lb2 - F2_Lp E ⟨Lb1, Fy, Cb⟩ s) /
            (F2_Lr E ⟨Lb1, Fy, Cb⟩ s - F2_Lp E ⟨Lb1, Fy, Cb⟩ s) := by
        refine (div_le_div_iff_of_pos_right hlrlp).mpr ?_
        exact mul_le_mul_of_nonneg_left (by linarith) hA.le
      exact mul_le_mul_of_nonneg_left (sub_le_sub_left hstep _) hCb.le

/-- C7 witness: a unit W-section with `E=4`, `Fy=Cb=1`, `Mp = 1 > 0.7`,
checked at `Lb1 = 1 <= Lb2 = 2`. -/
theorem F2_Mn_antitone_witness :
    F2_Mn 4 ⟨2, 1, 1⟩ ⟨SectType.W, 1, 1, 1, 1, 1, 1, 1, 1⟩
      ≤ F2_Mn 4 ⟨1, 1, 1⟩ ⟨SectType.W, 1, 1, 1, 1, 1, 1, 1, 1⟩ :=
  F2_Mn_antitone_in_Lb 4 1 1 1 2 ⟨SectType.W, 1, 1, 1, 1, 1, 1, 1, 1⟩
    (by norm_num) (by norm_num) (by norm_num) (by norm_num) (by norm_num)
    (by norm_num) (by norm_num) (by norm_num) (by norm_num) (by norm_num)
    (by norm_num) (by norm_num) (by norm_num) (by norm_num)
